import Mathlib

/-!
# Verification of the Auralis marker-driven theme propagator

Shallow embedding of the theme-propagation scripts
(`scripts/apply_theme.py`, `scripts/update_accent.py`,
`scripts/update_config.py`) and proofs about the properties
claimed in the specification.

Lines and string values are modelled as `List Char`; regular-expression
searches used by the scripts (`HEX_PATTERN`, `RGBA_PATTERN` and the
standalone-marker comment pattern) are modelled as explicit leftmost-match
scanners over character lists.  Python's float arithmetic in `lighten`
is modelled with exact rational arithmetic (`ℚ`) together with Python's
round-half-to-even integer rounding.
-/

/-- Character list of a string literal (convenience for writing embedded text). -/
def str (s : String) : List Char := s.data

/-- Python's `\s` class restricted to the ASCII whitespace characters
(space, tab, newline, carriage return, vertical tab, form feed);
the lines scanned by the scripts contain only ASCII. -/
def isSpaceChar (c : Char) : Bool :=
  decide (c.toNat = 32 ∨ c.toNat = 9 ∨ c.toNat = 10 ∨ c.toNat = 13 ∨
    c.toNat = 11 ∨ c.toNat = 12)

/-- The character class `[0-9a-fA-F]` of `HEX_PATTERN`/`RGBA_PATTERN`. -/
def isHexDigit (c : Char) : Bool :=
  decide ((48 ≤ c.toNat ∧ c.toNat ≤ 57) ∨ (97 ≤ c.toNat ∧ c.toNat ≤ 102) ∨
    (65 ≤ c.toNat ∧ c.toNat ≤ 70))

/-- The character class `[a-z0-9_-]` under `re.IGNORECASE`
(the standalone-marker token class). -/
def isTokenChar (c : Char) : Bool :=
  decide ((97 ≤ c.toLower.toNat ∧ c.toLower.toNat ≤ 122) ∨
    (48 ≤ c.toNat ∧ c.toNat ≤ 57) ∨ c.toNat = 95 ∨ c.toNat = 45)

/-- Python's substring test `needle in hay` for strings. -/
def containsSub (hay needle : List Char) : Bool :=
  if needle.isPrefixOf hay then true
  else
    match hay with
    | [] => false
    | _ :: t => containsSub t needle

/-- Leftmost-match search: try `matchAt` at offsets `i, i+1, …` of the list and
return the span `(start, stop)` of the first position where it yields a length. -/
def findFrom (matchAt : List Char → Option Nat) : List Char → Nat → Option (Nat × Nat)
  | [], _ => none
  | c :: rest, i =>
    match matchAt (c :: rest) with
    | some len => some (i, i + len)
    | none => findFrom matchAt rest (i + 1)

/-- Anchored match of `HEX_PATTERN = #([0-9a-fA-F]{6})` at the head of the list:
a `#` followed by (at least) six hex digits; the match consumes `#` plus
exactly six digits. -/
def hexMatchAt (cs : List Char) : Option Nat :=
  match cs with
  | [] => none
  | c :: rest =>
    if c = '#' ∧ 6 ≤ rest.length ∧ (rest.take 6).all isHexDigit then some 7 else none

/-- Anchored match of `RGBA_PATTERN = rgba\(([0-9a-fA-F]{8})\)` at the head:
the literal `rgba(`, exactly eight hex digits, then `)`. -/
def rgbaMatchAt (cs : List Char) : Option Nat :=
  if cs.take 5 = str "rgba(" ∧ 8 ≤ (cs.drop 5).length ∧
      ((cs.drop 5).take 8).all isHexDigit ∧ (cs.drop 13).take 1 = str ")" then
    some 14
  else none

/-- Embedding of `HEX_PATTERN.search(line)`: span of the leftmost `#RRGGBB` literal. -/
def hexSearch (line : List Char) : Option (Nat × Nat) :=
  findFrom hexMatchAt line 0

/-- Embedding of `RGBA_PATTERN.search(line)`: span of the leftmost `rgba(RRGGBBAA)` literal. -/
def rgbaSearch (line : List Char) : Option (Nat × Nat) :=
  findFrom rgbaMatchAt line 0

/-- Resolved settings record (`Theme` dataclass of `apply_theme.py`). -/
structure Theme where
  primary : List Char
  primary_bright : List Char
  primary_rgba : List Char
  secondary : List Char
  secondary_rgba : List Char
  secondary_bright : List Char
  secondary_bright_rgba : List Char
  tertiary : List Char
  tertiary_rgba : List Char
  tertiary_bright : List Char
  tertiary_bright_rgba : List Char
  quaternary : List Char
  quaternary_rgba : List Char
  quaternary_bright : List Char
  quaternary_bright_rgba : List Char
  quinary : List Char
  quinary_rgba : List Char
  quinary_bright : List Char
  quinary_bright_rgba : List Char
  rounding : Int
  waybar_floating : Bool
  waybar_border_radius : Int
  waybar_padding : List Char
  waybar_margin : List Char
deriving DecidableEq

/-- Embedding of `getattr(theme, key)` for the attribute names appearing in the marker table. -/
def Theme.attr (t : Theme) : String → List Char
  | "primary" => t.primary
  | "primary_bright" => t.primary_bright
  | "primary_rgba" => t.primary_rgba
  | "secondary" => t.secondary
  | "secondary_rgba" => t.secondary_rgba
  | "secondary_bright" => t.secondary_bright
  | "secondary_bright_rgba" => t.secondary_bright_rgba
  | "tertiary" => t.tertiary
  | "tertiary_rgba" => t.tertiary_rgba
  | "tertiary_bright" => t.tertiary_bright
  | "tertiary_bright_rgba" => t.tertiary_bright_rgba
  | "quaternary" => t.quaternary
  | "quaternary_rgba" => t.quaternary_rgba
  | "quaternary_bright" => t.quaternary_bright
  | "quaternary_bright_rgba" => t.quaternary_bright_rgba
  | "quinary" => t.quinary
  | "quinary_rgba" => t.quinary_rgba
  | "quinary_bright" => t.quinary_bright
  | "quinary_bright_rgba" => t.quinary_bright_rgba
  | _ => []

/-- Embedding of `key.endswith("_rgba")`. -/
def keyIsRgba (key : String) : Bool :=
  (str "_rgba").reverse.isPrefixOf key.data.reverse

/-- Python's `str.strip()`: drop whitespace from both ends. -/
def pyStrip (s : List Char) : List Char :=
  ((s.dropWhile isSpaceChar).reverse.dropWhile isSpaceChar).reverse

/-- Prefix a `#` unless the string already starts with one
(`if not s.startswith("#"): s = f"#{s}"`). -/
def withHash (s : List Char) : List Char :=
  match s with
  | '#' :: _ => s
  | _ => '#' :: s

/-- Embedding of `HEX_PATTERN.fullmatch(s)`: a `#` followed by exactly six hex digits. -/
def hexFullmatch (s : List Char) : Bool :=
  match s with
  | [] => false
  | c :: rest => c = '#' ∧ rest.length = 6 ∧ rest.all isHexDigit = true

/-- Embedding of `normalize_hex` (identical in `apply_theme.py` and `update_accent.py`):
strip, lower-case, ensure the `#` sigil, and fail (`ValueError`) unless the
result fully matches `#[0-9a-fA-F]{6}`. -/
def normalize_hex (value : List Char) : Option (List Char) :=
  if hexFullmatch (withHash ((pyStrip value).map Char.toLower)) then
    some (withHash ((pyStrip value).map Char.toLower))
  else none

/-- Embedding of `hex_to_rgba`: `f"rgba({hex_value.lstrip('#')}ff)"`. -/
def hex_to_rgba (hexValue : List Char) : List Char :=
  str "rgba(" ++ hexValue.dropWhile (fun c => c = '#') ++ str "ff)"

/-- Python's built-in `round` on an exact rational: round half to even. -/
def pyRound (q : ℚ) : ℤ :=
  if q - ⌊q⌋ < 1 / 2 then ⌊q⌋
  else if 1 / 2 < q - ⌊q⌋ then ⌊q⌋ + 1
  else if 2 ∣ ⌊q⌋ then ⌊q⌋ else ⌊q⌋ + 1

/-- Value of one hex digit (`int(·, 16)` per character). -/
def hexDigitVal (c : Char) : ℕ :=
  if 48 ≤ c.toNat ∧ c.toNat ≤ 57 then c.toNat - 48
  else if 97 ≤ c.toNat ∧ c.toNat ≤ 102 then c.toNat - 87
  else if 65 ≤ c.toNat ∧ c.toNat ≤ 70 then c.toNat - 55
  else 0

/-- Embedding of `int(base[i:i+2], 16)`: value of a two-hex-digit pair. -/
def hexPairVal (c1 c2 : Char) : ℕ :=
  16 * hexDigitVal c1 + hexDigitVal c2

/-- The three byte channels of a `#RRGGBB` string
(`[int(base[i:i+2], 16) for i in (1, 3, 5)]`). -/
def hexChannels (v : List Char) : List ℕ :=
  match v with
  | '#' :: a :: b :: c :: d :: e :: f :: _ =>
    [hexPairVal a b, hexPairVal c d, hexPairVal e f]
  | _ => []

/-- Lower-case hex digit character for a value `< 16`. -/
def hexChar (d : ℕ) : Char :=
  if d < 10 then Char.ofNat (48 + d) else Char.ofNat (87 + d)

/-- Embedding of `f"{c:02x}"` for a clamped channel value (`≤ 255`): two hex digits. -/
def toHex2 (n : ℕ) : List Char :=
  [hexChar (n / 16 % 16), hexChar (n % 16)]

/-- One channel of `lighten`: `min(255, round(ch + (255 - ch) * factor))`. -/
def lightenChannel (ch : ℕ) (factor : ℚ) : ℤ :=
  min 255 (pyRound ((ch : ℚ) + (255 - (ch : ℚ)) * factor))

/-- Body of `lighten` applied to an already-normalized `#RRGGBB` string:
parse the three channels, move each toward 255 by `factor`, clamp, and
re-render as lower-case hex. -/
def lightenCore (base : List Char) (factor : ℚ) : List Char :=
  '#' :: ((hexChannels base).map (fun ch => (lightenChannel ch factor).toNat)).flatMap toHex2

/-- Embedding of `lighten` (identical in `apply_theme.py` and `update_accent.py`):
normalize the input (propagating its failure), then lighten each channel. -/
def lighten (hexValue : List Char) (factor : ℚ) : Option (List Char) :=
  (normalize_hex hexValue).map (fun base => lightenCore base factor)

namespace ApplyTheme

/-- Embedding of `ACCENT_MARKERS` of `apply_theme.py`: `(marker token, Theme attribute)` pairs
in the order the code consults them (most specific token first). -/
def ACCENT_MARKERS : List (List Char × String) :=
  [ (str "accent:primary-rgba", "primary_rgba"),
    (str "accent:primary-bright", "primary_bright"),
    (str "accent:primary", "primary"),
    (str "accent:secondary-bright-rgba", "secondary_bright_rgba"),
    (str "accent:secondary-bright", "secondary_bright"),
    (str "accent:secondary-rgba", "secondary_rgba"),
    (str "accent:secondary", "secondary"),
    (str "accent:tertiary-bright-rgba", "tertiary_bright_rgba"),
    (str "accent:tertiary-bright", "tertiary_bright"),
    (str "accent:tertiary-rgba", "tertiary_rgba"),
    (str "accent:tertiary", "tertiary"),
    (str "accent:quaternary-bright-rgba", "quaternary_bright_rgba"),
    (str "accent:quaternary-bright", "quaternary_bright"),
    (str "accent:quaternary-rgba", "quaternary_rgba"),
    (str "accent:quaternary", "quaternary"),
    (str "accent:quinary-bright-rgba", "quinary_bright_rgba"),
    (str "accent:quinary-bright", "quinary_bright"),
    (str "accent:quinary-rgba", "quinary_rgba"),
    (str "accent:quinary", "quinary") ]

/-- Embedding of `marker.split(":", 1)[1]`: the part of the marker after the first colon. -/
def afterColon (m : List Char) : List Char :=
  (m.dropWhile (fun c => ¬ c = ':')).drop 1

/-- Embedding of `ACCENT_MAP`: each marker maps to its key, and so does its bare token
(the part after the colon).  All keys are distinct, so the Python dict is
modelled as an association list searched front to back. -/
def ACCENT_MAP : List (List Char × String) :=
  ACCENT_MARKERS.flatMap (fun p => [(p.1, p.2), (afterColon p.1, p.2)])

/-- Dictionary lookup in an association list. -/
def lookupMap (m : List (List Char × String)) (k : List Char) : Option String :=
  match m with
  | [] => none
  | (k', v) :: rest => if k = k' then some v else lookupMap rest k

/-- Embedding of `replace_first` of `apply_theme.py`: replace the span of the first match of
the pattern, reporting no change when the existing span text already equals
the replacement. -/
def replace_first (search : List Char → Option (Nat × Nat))
    (line repl : List Char) : List Char × Bool :=
  match search line with
  | none => (line, false)
  | some (a, b) =>
    if (line.drop a).take (b - a) = repl then (line, false)
    else (line.take a ++ repl ++ line.drop b, true)

/-- First entry of the marker table whose token occurs in the line
(the `for marker, key in ACCENT_MARKERS` loop's selection). -/
def findMarker (table : List (List Char × String)) (line : List Char) :
    Option (List Char × String) :=
  match table with
  | [] => none
  | (m, k) :: rest =>
    if containsSub line m then some (m, k) else findMarker rest line

/-- Embedding of `update_line_with_accent` of `apply_theme.py`. -/
def update_line_with_accent (line : List Char) (theme : Theme) : List Char × Bool :=
  match findMarker ACCENT_MARKERS line with
  | none => (line, false)
  | some (_, key) =>
    if keyIsRgba key then replace_first rgbaSearch line (theme.attr key)
    else replace_first hexSearch line (theme.attr key)

/-- Anchored match for the standalone-marker pattern at a `#`:
`#\s*accent:([a-z0-9_-]+)` with `re.IGNORECASE`; returns the lower-cased
captured token. -/
def hashTokenAt (cs : List Char) : Option (List Char) :=
  match cs with
  | [] => none
  | c :: rest =>
    if c = '#' then
      let r2 := rest.dropWhile isSpaceChar
      if (r2.take 7).map Char.toLower = str "accent:" then
        let tok := (r2.drop 7).takeWhile isTokenChar
        if tok = [] then none else some (tok.map Char.toLower)
      else none
    else none

/-- Embedding of `re.search(r"(^|\s)#\s*accent:([a-z0-9_-]+)", line, re.IGNORECASE)`:
scan positions left to right; a `#` qualifies when it sits at the start of the
line or right after a whitespace character (the consumed `(^|\s)` group).
Returns the lower-cased token of the leftmost full match. -/
def standaloneSearchAux : List Char → Bool → Option (List Char)
  | [], _ => none
  | c :: rest, okHere =>
    match (if okHere then hashTokenAt (c :: rest) else none) with
    | some tok => some tok
    | none => standaloneSearchAux rest (isSpaceChar c)

/-- Leftmost standalone-marker comment match on a line. -/
def standaloneSearch (line : List Char) : Option (List Char) :=
  standaloneSearchAux line true

/-- Case (3) of the `apply_accent` line loop: consume the pending marker on a
literal-bearing line, replacing per the marker's key kind; the pending slot is
cleared regardless of whether the replacement altered anything. -/
def applyPending (theme : Theme) (tok line : List Char) :
    List Char × Bool × Option (List Char) :=
  let key := (lookupMap ACCENT_MAP tok).getD ""
  let repl := theme.attr key
  let r :=
    if keyIsRgba key then replace_first rgbaSearch line repl
    else replace_first hexSearch line repl
  (r.1, r.2, none)

/-- One iteration of the `for i, line in enumerate(lines)` loop of
`apply_accent`: returns the (possibly rewritten) line, whether this line was
altered, and the new pending-marker state.

Mirrors the three cases of the source: (1) inline marker actually replaced
something → line rewritten, pending cleared; (2) the line matches the
standalone-comment pattern and carries no hex/rgba literal → pending set when
the token is known, the line is never altered and case (3) is skipped;
(3) otherwise a pending marker is consumed by the first literal-bearing line. -/
def scanStep (theme : Theme) (pending : Option (List Char)) (line : List Char) :
    List Char × Bool × Option (List Char) :=
  if (update_line_with_accent line theme).2 then
    ((update_line_with_accent line theme).1, true, none)
  else
    match standaloneSearch line, hexSearch line, rgbaSearch line with
    | some tok, none, none =>
      if (lookupMap ACCENT_MAP tok).isSome then (line, false, some tok)
      else (line, false, pending)
    | _, _, _ =>
      match pending with
      | some tok =>
        if (hexSearch line).isSome || (rgbaSearch line).isSome then
          applyPending theme tok line
        else (line, false, some tok)
      | none => (line, false, none)

/-- The whole per-file line loop of `apply_accent`: thread the pending-marker
state through the lines and accumulate the `changed` flag.  Returns the
rewritten lines and whether any line was altered (the file is written back and
reported as updated exactly when this flag is true). -/
def scanLines (theme : Theme) : Option (List Char) → List (List Char) →
    List (List Char) × Bool
  | _, [] => ([], false)
  | pending, l :: ls =>
    ((scanStep theme pending l).1 ::
        (scanLines theme (scanStep theme pending l).2.2 ls).1,
      (scanStep theme pending l).2.1 ||
        (scanLines theme (scanStep theme pending l).2.2 ls).2)

/-- Embedding of `apply_accent` restricted to a single file's lines, starting with no
pending marker. -/
def apply_accent_lines (theme : Theme) (lines : List (List Char)) :
    List (List Char) × Bool :=
  scanLines theme none lines

/-- Python's `x or y` for optional strings: `None` and the empty string are
falsy, so the first non-empty present string wins. -/
def pyOrStr (a b : Option (List Char)) : Option (List Char) :=
  match a with
  | some s => if s.isEmpty then b else some s
  | none => b

/-- The inputs of one `load_theme` color resolution: for each of the ten color
slots, the CLI override (`None` when the flag is absent) and the value stored
in `theme.toml`'s `[accent]` table (`None` when the key is absent). -/
structure AccentInputs where
  o_primary : Option (List Char)
  o_primary_bright : Option (List Char)
  o_secondary : Option (List Char)
  o_secondary_bright : Option (List Char)
  o_tertiary : Option (List Char)
  o_tertiary_bright : Option (List Char)
  o_quaternary : Option (List Char)
  o_quaternary_bright : Option (List Char)
  o_quinary : Option (List Char)
  o_quinary_bright : Option (List Char)
  s_primary : Option (List Char)
  s_primary_bright : Option (List Char)
  s_secondary : Option (List Char)
  s_secondary_bright : Option (List Char)
  s_tertiary : Option (List Char)
  s_tertiary_bright : Option (List Char)
  s_quaternary : Option (List Char)
  s_quaternary_bright : Option (List Char)
  s_quinary : Option (List Char)
  s_quinary_bright : Option (List Char)
deriving DecidableEq

/-- Inputs with every override and stored value absent. -/
def emptyInputs : AccentInputs :=
  ⟨none, none, none, none, none, none, none, none, none, none,
   none, none, none, none, none, none, none, none, none, none⟩

/-- Embedding of `normalize_hex(override or stored or default)` for a slot whose default is
a literal (or an earlier resolved color, which is always truthy). -/
def resolve_plain (ov st : Option (List Char)) (deflt : List Char) :
    Option (List Char) :=
  normalize_hex ((pyOrStr ov st).getD deflt)

/-- Embedding of `normalize_hex(override or stored or lighten(base))` for a bright slot:
`lighten` runs only when both the override and the stored value are falsy,
and its own failure fails the resolution. -/
def resolve_bright (ov st : Option (List Char)) (base : List Char) :
    Option (List Char) :=
  match pyOrStr ov st with
  | some s => normalize_hex s
  | none => (lighten base (1 / 5)).bind normalize_hex

/-- The ten base color slots resolved by `load_theme`. -/
structure Colors where
  primary : List Char
  primary_bright : List Char
  secondary : List Char
  secondary_bright : List Char
  tertiary : List Char
  tertiary_bright : List Char
  quaternary : List Char
  quaternary_bright : List Char
  quinary : List Char
  quinary_bright : List Char
deriving DecidableEq

/-- The color-resolution part of `load_theme`: each slot resolved by the
override → stored → default precedence and validated by `normalize_hex`;
the first failure aborts the whole resolution (`ValueError` in the source),
so no partial record is ever produced. -/
def load_theme_colors (i : AccentInputs) : Option Colors := do
  let primary ← resolve_plain i.o_primary i.s_primary (str "#7dd6f6")
  let primary_bright ← resolve_bright i.o_primary_bright i.s_primary_bright primary
  let secondary ← resolve_plain i.o_secondary i.s_secondary primary
  let secondary_bright ←
    resolve_bright i.o_secondary_bright i.s_secondary_bright secondary
  let tertiary ← resolve_plain i.o_tertiary i.s_tertiary (str "#66cc66")
  let tertiary_bright ← resolve_bright i.o_tertiary_bright i.s_tertiary_bright tertiary
  let quaternary ← resolve_plain i.o_quaternary i.s_quaternary (str "#e65c5c")
  let quaternary_bright ←
    resolve_bright i.o_quaternary_bright i.s_quaternary_bright quaternary
  let quinary ← resolve_plain i.o_quinary i.s_quinary (str "#ffcc66")
  let quinary_bright ← resolve_bright i.o_quinary_bright i.s_quinary_bright quinary
  pure ⟨primary, primary_bright, secondary, secondary_bright, tertiary,
    tertiary_bright, quaternary, quaternary_bright, quinary, quinary_bright⟩

/-- The inputs with the `--accent` (primary) override set. -/
def setPrimaryOverride (i : AccentInputs) (s : List Char) : AccentInputs :=
  { i with o_primary := some s }

/-- Every resolved color of a `Colors` record fully matches `#[0-9a-fA-F]{6}`. -/
def validColors (c : Colors) : Prop :=
  hexFullmatch c.primary = true ∧ hexFullmatch c.primary_bright = true ∧
  hexFullmatch c.secondary = true ∧ hexFullmatch c.secondary_bright = true ∧
  hexFullmatch c.tertiary = true ∧ hexFullmatch c.tertiary_bright = true ∧
  hexFullmatch c.quaternary = true ∧ hexFullmatch c.quaternary_bright = true ∧
  hexFullmatch c.quinary = true ∧ hexFullmatch c.quinary_bright = true

/-- The argparse conversion for `--waybar-floating`:
`lambda x: x.lower() in {"true", "1", "yes"}`. -/
def waybar_floating_arg (x : List Char) : Bool :=
  decide (x.map Char.toLower = str "true" ∨ x.map Char.toLower = str "1" ∨
    x.map Char.toLower = str "yes")

/-- Embedding of `load_theme`'s resolution of the floating flag:
`bool(override if override is not None else ui.get("waybar_floating", True))`. -/
def resolve_waybar_floating (ov : Option Bool) (stored : Option Bool) : Bool :=
  match ov with
  | some b => b
  | none => stored.getD true

/-- Resolution of the floating flag from a raw command-line string (the
argparse `type` conversion composed with `load_theme`): an absent flag is
`None`; a present flag is first converted to a boolean by
`waybar_floating_arg`. -/
def waybar_floating_from_cli (arg : Option (List Char)) (stored : Option Bool) :
    Bool :=
  resolve_waybar_floating (arg.map waybar_floating_arg) stored

/-- What `data.get("ui")` can yield from the prior `theme.toml`: a TOML table
(a Python `dict`) or some non-table value. -/
inductive PyValue where
  | dict : PyValue
  | nonDict : PyValue
deriving DecidableEq

/-- State of the settings file before `update_theme_file` runs:
whether it exists, and — when it exists — the parse outcome
(`none` for a `tomllib` exception, otherwise `data.get("ui")`). -/
structure PriorSettings where
  fileExists : Bool
  parseResult : Option (Option PyValue)
deriving DecidableEq

/-- The `existing_ui` computed by `update_theme_file`: `None` unless the file
exists, parses, and has a `ui` key. -/
def existing_ui (p : PriorSettings) : Option PyValue :=
  if p.fileExists then
    match p.parseResult with
    | some u => u
    | none => none
  else none

/-- The two fixed header comment lines and the blank separator emitted at the
top of the regenerated `theme.toml`. -/
def headerLines : List (List Char) :=
  [str "# Theme configuration (colors + UI)",
   str "# Managed by scripts/apply_theme.py",
   str ""]

/-- The `[accent]` section regenerated in full from the resolved settings. -/
def accentLines (t : Theme) : List (List Char) :=
  [str "[accent]",
   str "primary = \x22" ++ t.primary ++ str "\x22",
   str "primary_bright = \x22" ++ t.primary_bright ++ str "\x22",
   str "secondary = \x22" ++ t.secondary ++ str "\x22",
   str "secondary_bright = \x22" ++ t.secondary_bright ++ str "\x22",
   str "tertiary = \x22" ++ t.tertiary ++ str "\x22",
   str "tertiary_bright = \x22" ++ t.tertiary_bright ++ str "\x22",
   str "quaternary = \x22" ++ t.quaternary ++ str "\x22",
   str "quaternary_bright = \x22" ++ t.quaternary_bright ++ str "\x22",
   str "quinary = \x22" ++ t.quinary ++ str "\x22",
   str "quinary_bright = \x22" ++ t.quinary_bright ++ str "\x22",
   str ""]

/-- Decimal rendering of a Python `int` (`f"{int(v)}"`). -/
def intStr (n : Int) : List Char := (toString n).data

/-- Embedding of `str(bool).lower()` for the floating flag. -/
def boolStr (b : Bool) : List Char := if b then str "true" else str "false"

/-- The `[ui]` section emitted when a `ui` table existed before the rewrite;
all values come from the resolved settings.  (The source appends
`"\n# Waybar style"` as one list element; it is kept as one element here.) -/
def uiLines (t : Theme) : List (List Char) :=
  [str "[ui]",
   str "rounding = " ++ intStr t.rounding ++ str "  # config:rounding",
   str "\n# Waybar style",
   str "waybar_floating = " ++ boolStr t.waybar_floating ++
     str "  # config:waybar_floating",
   str "waybar_border_radius = " ++ intStr t.waybar_border_radius ++
     str "  # config:waybar_floating:border-radius",
   str "waybar_padding = \x22" ++ t.waybar_padding ++
     str "\x22  # config:waybar_floating:padding",
   str "waybar_margin = \x22" ++ t.waybar_margin ++
     str "\x22  # config:waybar_floating:margin",
   str ""]

/-- Embedding of `update_theme_file` of `apply_theme.py`, as the list of lines written to
`theme.toml`: the header and `[accent]` section are always regenerated from
the resolved settings; the `[ui]` section is appended only when `existing_ui`
was a dict; nothing else is emitted. -/
def update_theme_file (t : Theme) (p : PriorSettings) : List (List Char) :=
  headerLines ++ accentLines t ++
    (match existing_ui p with
     | some PyValue.dict => uiLines t
     | _ => [])

end ApplyTheme

namespace UpdateAccent

/-- Embedding of `replace_first` of `update_accent.py`: like the `apply_theme.py` version but
with NO already-equal check — any match is reported as a change. -/
def replace_first (search : List Char → Option (Nat × Nat))
    (line repl : List Char) : List Char × Bool :=
  match search line with
  | none => (line, false)
  | some (a, b) => (line.take a ++ repl ++ line.drop b, true)

end UpdateAccent

section Sanity

example : hexSearch (str "color: #7dd6f6;") = some (7, 14) := by decide

example : rgbaSearch (str "x rgba(aabbccddff)") = none := by decide

example : rgbaSearch (str "x rgba(aabbccdd)") = some (2, 16) := by decide

example :
    ApplyTheme.lookupMap ApplyTheme.ACCENT_MAP (str "secondary") = some "secondary" := by
  decide

example : keyIsRgba "secondary_bright_rgba" = true := by decide

example : keyIsRgba "secondary_bright" = false := by decide

end Sanity

/-- A concrete well-formed resolved settings record used for evaluations. -/
def theme0 : Theme :=
  { primary := str "#111111"
    primary_bright := str "#333333"
    primary_rgba := str "rgba(111111ff)"
    secondary := str "#222222"
    secondary_rgba := str "rgba(222222ff)"
    secondary_bright := str "#444444"
    secondary_bright_rgba := str "rgba(444444ff)"
    tertiary := str "#555555"
    tertiary_rgba := str "rgba(555555ff)"
    tertiary_bright := str "#666666"
    tertiary_bright_rgba := str "rgba(666666ff)"
    quaternary := str "#777777"
    quaternary_rgba := str "rgba(777777ff)"
    quaternary_bright := str "#888888"
    quaternary_bright_rgba := str "rgba(888888ff)"
    quinary := str "#999999"
    quinary_rgba := str "rgba(999999ff)"
    quinary_bright := str "#aaaaaa"
    quinary_bright_rgba := str "rgba(aaaaaaff)"
    rounding := 10
    waybar_floating := true
    waybar_border_radius := 12
    waybar_padding := str "3px 4px"
    waybar_margin := str "4px 6px" }

section Sanity2

example :
    ApplyTheme.standaloneSearch (str "# accent:secondary") = some (str "secondary") := by
  decide

example : ApplyTheme.standaloneSearch (str "/* accent:primary */") = none := by decide

example :
    ApplyTheme.apply_accent_lines theme0
      [str "# accent:secondary", str "#000000 accent:primary"] =
      ([str "# accent:secondary", str "#111111 accent:primary"], true) := by
  decide

example :
    ApplyTheme.apply_accent_lines theme0
      [str "# accent:secondary", str "#111111 accent:primary"] =
      ([str "# accent:secondary", str "#222222 accent:primary"], true) := by
  decide

example :
    ApplyTheme.apply_accent_lines theme0
      [str "# accent:secondary", str "/* accent:primary */", str "color: #000000;"] =
      ([str "# accent:secondary", str "/* accent:primary */", str "color: #222222;"],
        true) := by
  decide

end Sanity2

namespace ApplyTheme

theorem replace_first_of_search_none (search : List Char → Option (Nat × Nat))
    (line repl : List Char) (h : search line = none) :
    replace_first search line repl = (line, false) := by
  simp [replace_first, h]

theorem replace_first_unchanged {search : List Char → Option (Nat × Nat)}
    {line repl : List Char} (h : (replace_first search line repl).2 = false) :
    (replace_first search line repl).1 = line := by
  unfold replace_first at h ⊢
  cases hs : search line with
  | none => simp
  | some ab =>
    obtain ⟨a, b⟩ := ab
    rw [hs] at h
    dsimp only at h ⊢
    by_cases hc : List.take (b - a) (List.drop a line) = repl
    · simp [hc]
    · simp [hc] at h

theorem update_line_of_no_literals {line : List Char} (theme : Theme)
    (hh : hexSearch line = none) (hr : rgbaSearch line = none) :
    update_line_with_accent line theme = (line, false) := by
  unfold update_line_with_accent
  cases hm : findMarker ACCENT_MARKERS line with
  | none => rfl
  | some mk =>
    obtain ⟨m, key⟩ := mk
    by_cases hk : keyIsRgba key = true <;>
      simp [hk, replace_first_of_search_none _ _ _ hh,
        replace_first_of_search_none _ _ _ hr]

theorem update_line_unchanged {line : List Char} {theme : Theme}
    (h : (update_line_with_accent line theme).2 = false) :
    (update_line_with_accent line theme).1 = line := by
  unfold update_line_with_accent at h ⊢
  cases hm : findMarker ACCENT_MARKERS line with
  | none => rfl
  | some mk =>
    obtain ⟨m, key⟩ := mk
    rw [hm] at h
    dsimp only at h ⊢
    by_cases hk : keyIsRgba key = true
    · simp only [hk, if_true] at h ⊢
      exact replace_first_unchanged h
    · simp only [hk, if_false] at h ⊢
      exact replace_first_unchanged h

theorem applyPending_clears (theme : Theme) (tok line : List Char) :
    (applyPending theme tok line).2.2 = none := rfl

theorem scanStep_clears (theme : Theme) (pending : Option (List Char))
    (line : List Char)
    (h : (update_line_with_accent line theme).2 = true ∨
      (hexSearch line).isSome = true ∨ (rgbaSearch line).isSome = true) :
    (scanStep theme pending line).2.2 = none := by
  unfold scanStep
  cases hu : (update_line_with_accent line theme).2
  · cases hss : standaloneSearch line <;>
      cases hhs : hexSearch line <;>
        cases hrs : rgbaSearch line <;>
          cases pending <;>
            simp_all [applyPending_clears]
  · simp

theorem scanStep_sets (theme : Theme) (pending : Option (List Char))
    (line tok : List Char)
    (h : (scanStep theme pending line).2.2 = some tok) :
    pending = some tok ∨
      (standaloneSearch line = some tok ∧ hexSearch line = none ∧
        rgbaSearch line = none ∧ (lookupMap ACCENT_MAP tok).isSome = true) := by
  unfold scanStep at h
  cases hu : (update_line_with_accent line theme).2 <;> rw [hu] at h
  · cases hss : standaloneSearch line <;> rw [hss] at h <;>
      cases hhs : hexSearch line <;> rw [hhs] at h <;>
        cases hrs : rgbaSearch line <;> try rw [hrs] at h
    all_goals
      cases hp : pending <;> rw [hp] at h <;>
        simp_all [applyPending_clears, applyPending]
    all_goals
      split at h <;> simp_all
  · simp at h

end ApplyTheme

/-- C1: the propagation pass is NOT idempotent, contradicting both the spec's
testable property and the docstring of `apply_theme.py` ("Idempotent and safe
to run multiple times").  On the file
`["# accent:secondary", "#000000 accent:primary"]` the first pass rewrites the
second line to the primary color and clears the pending marker, but the second
pass finds the inline replacement a no-op, falls through to the pending-marker
case, and rewrites the line again with the secondary color — so the second run
reports the file as modified.  Moreover the `update_accent.py` variant of
`replace_first` marks a line changed even when the existing literal already
equals the replacement. -/
theorem C1_second_run_reports_changes :
    (ApplyTheme.scanLines theme0 none
        (ApplyTheme.scanLines theme0 none
          [str "# accent:secondary", str "#000000 accent:primary"]).1).2 = true ∧
    UpdateAccent.replace_first hexSearch (str "#111111") (str "#111111") =
      (str "#111111", true) := by
  exact ⟨by decide, by decide⟩

/-- C2 counterexample: the pending standalone marker DOES leak past a line that
carries its own inline marker, and IS substituted into a line that contains a
different inline marker, because case (1) clears the pending slot only when the
inline substitution actually altered the line.  First scenario: the pending
`secondary` marker survives past `/* accent:primary */` (a line carrying the
inline marker `accent:primary` but no literal) and rewrites the following
line.  Second scenario: the pending `secondary` marker is substituted into a
line whose own inline `accent:primary` substitution was a no-op. -/
theorem C2_counterexample :
    containsSub (str "/* accent:primary */") (str "accent:primary") = true ∧
    ApplyTheme.scanLines theme0 none
      [str "# accent:secondary", str "/* accent:primary */",
        str "color: #000000;"] =
      ([str "# accent:secondary", str "/* accent:primary */",
        str "color: #222222;"], true) ∧
    containsSub (str "color: #111111; /* accent:primary */")
      (str "accent:primary") = true ∧
    ApplyTheme.scanLines theme0 none
      [str "# accent:secondary", str "color: #111111; /* accent:primary */"] =
      ([str "# accent:secondary",
        str "color: #222222; /* accent:primary */"], true) := by
  exact ⟨by decide, by decide, by decide, by decide⟩

/-- C2 (amended): the pending marker is set only by a standalone-comment marker
line with a known token and no literal, and it is cleared by any line whose
inline substitution actually altered it or that carries a hex/rgba literal;
a line carrying an inline marker whose substitution was a no-op and that has
no literal does NOT clear the pending marker. -/
theorem C2_pending_state_machine (theme : Theme) (pending : Option (List Char))
    (line : List Char) :
    (∀ tok, (ApplyTheme.scanStep theme pending line).2.2 = some tok →
      pending = some tok ∨
        (ApplyTheme.standaloneSearch line = some tok ∧ hexSearch line = none ∧
          rgbaSearch line = none ∧
          (ApplyTheme.lookupMap ApplyTheme.ACCENT_MAP tok).isSome = true)) ∧
    (((ApplyTheme.update_line_with_accent line theme).2 = true ∨
        (hexSearch line).isSome = true ∨ (rgbaSearch line).isSome = true) →
      (ApplyTheme.scanStep theme pending line).2.2 = none) :=
  ⟨fun tok h => ApplyTheme.scanStep_sets theme pending line tok h,
   fun h => ApplyTheme.scanStep_clears theme pending line h⟩

/-- Witness for `C2_pending_state_machine` at a concrete literal-bearing line:
the pending `secondary` marker is cleared. -/
theorem C2_pending_state_machine_witness :
    (ApplyTheme.scanStep theme0 (some (str "secondary"))
      (str "color: #111111; /* accent:primary */")).2.2 = none :=
  (C2_pending_state_machine theme0 (some (str "secondary"))
    (str "color: #111111; /* accent:primary */")).2
    (Or.inr (Or.inl (by decide)))

/-- C3 counterexample: a string outside the recognized truthy set is NOT
treated as not-overridden — `--waybar-floating banana` overrides the flag to
`false` even though the stored configuration value is `true` (which an absent
flag would have let decide). -/
theorem C3_counterexample :
    ApplyTheme.waybar_floating_from_cli (some (str "banana")) (some true) = false ∧
    ApplyTheme.waybar_floating_from_cli none (some true) = true := by
  exact ⟨by decide, by decide⟩

/-- C3 (amended): a present `--waybar-floating` argument always overrides the
resolved flag with exactly the truthiness of its token — `true`/`1`/`yes`
case-insensitively give `true` and every other string gives `false`; the
stored value (default `true`) decides only when the flag is absent. -/
theorem C3_floating_token_resolution :
    ∀ (s : List Char) (stored : Option Bool),
      ApplyTheme.waybar_floating_from_cli (some s) stored =
        ApplyTheme.waybar_floating_arg s ∧
      (ApplyTheme.waybar_floating_arg s = true ↔
        (s.map Char.toLower = str "true" ∨ s.map Char.toLower = str "1" ∨
          s.map Char.toLower = str "yes")) ∧
      ApplyTheme.waybar_floating_from_cli none stored = stored.getD true := by
  intro s stored
  refine ⟨rfl, by simp [ApplyTheme.waybar_floating_arg], rfl⟩

theorem containsSub_iff (hay needle : List Char) :
    containsSub hay needle = true ↔ needle <:+: hay := by
  induction hay with
  | nil =>
    rw [containsSub]
    constructor
    · intro h
      split at h
      · exact (List.isPrefixOf_iff_prefix.mp (by assumption)).isInfix
      · exact absurd h (by simp)
    · intro h
      have : needle = [] := List.eq_nil_of_infix_nil h
      simp [this]
  | cons c t ih =>
    rw [containsSub]
    by_cases hp : needle.isPrefixOf (c :: t) = true
    · simp only [hp, if_true, true_iff]
      exact (List.isPrefixOf_iff_prefix.mp hp).isInfix
    · rw [if_neg hp, ih, List.infix_cons_iff]
      constructor
      · exact Or.inr
      · rintro (h | h)
        · exact absurd (List.isPrefixOf_iff_prefix.mpr h) hp
        · exact h

theorem containsSub_of_infix {line a b : List Char}
    (h : containsSub line a = true) (hba : b <:+: a) :
    containsSub line b = true :=
  (containsSub_iff line b).mpr (hba.trans ((containsSub_iff line a).mp h))

namespace ApplyTheme

theorem update_line_of_no_marker {line : List Char} (theme : Theme)
    (h : findMarker ACCENT_MARKERS line = none) :
    update_line_with_accent line theme = (line, false) := by
  unfold update_line_with_accent
  rw [h]

theorem scanStep_standalone (theme : Theme) (pending : Option (List Char))
    {line tok : List Char} (hs : standaloneSearch line = some tok)
    (hh : hexSearch line = none) (hr : rgbaSearch line = none)
    (hm : (lookupMap ACCENT_MAP tok).isSome = true) :
    scanStep theme pending line = (line, false, some tok) := by
  unfold scanStep
  rw [update_line_of_no_literals theme hh hr]
  simp [hs, hh, hr, hm]

theorem scanStep_consumes (theme : Theme) {tok line : List Char}
    (hlit : (hexSearch line).isSome = true ∨ (rgbaSearch line).isSome = true)
    (hnm : findMarker ACCENT_MARKERS line = none) :
    scanStep theme (some tok) line = applyPending theme tok line := by
  unfold scanStep
  rw [update_line_of_no_marker theme hnm]
  cases hss : standaloneSearch line <;>
    cases hhs : hexSearch line <;>
      cases hrs : rgbaSearch line <;>
        simp_all

theorem scanStep_inert (theme : Theme) {l : List Char}
    (hnm : findMarker ACCENT_MARKERS l = none)
    (hns : standaloneSearch l = none) :
    scanStep theme none l = (l, false, none) := by
  unfold scanStep
  rw [update_line_of_no_marker theme hnm]
  cases hhs : hexSearch l <;> cases hrs : rgbaSearch l <;> simp_all

theorem scanLines_inert (theme : Theme) {ls : List (List Char)}
    (h : ∀ l ∈ ls, findMarker ACCENT_MARKERS l = none ∧ standaloneSearch l = none) :
    scanLines theme none ls = (ls, false) := by
  induction ls with
  | nil => rfl
  | cons l t ih =>
    rw [scanLines]
    have hl := h l (by simp)
    rw [scanStep_inert theme hl.1 hl.2]
    have ht := ih (fun x hx => h x (by simp [hx]))
    simp [ht]

theorem scanStep_none_pending (theme : Theme) {l : List Char}
    (hns : standaloneSearch l = none) :
    scanStep theme none l =
      ((update_line_with_accent l theme).1, (update_line_with_accent l theme).2,
        none) := by
  unfold scanStep
  cases hu : (update_line_with_accent l theme).2
  · have h1 := update_line_unchanged hu
    cases hhs : hexSearch l <;> cases hrs : rgbaSearch l <;> simp_all
  · simp

end ApplyTheme

/-- C4: standalone-marker binding.  A comment-only marker line (standalone
pattern match, no literal, known token) followed by a literal-bearing line
without its own inline marker and then any further marker-free lines:
exactly the first literal-bearing line is rewritten by the pending marker's
resolved value (per `applyPending`), every later line is returned verbatim —
so the marker is consumed exactly once, even when the substitution on the
first literal-bearing line changed nothing. -/
theorem C4_standalone_binding (theme : Theme) (mline l1 : List Char)
    (rest : List (List Char)) (tok : List Char)
    (h1 : ApplyTheme.standaloneSearch mline = some tok)
    (h2 : hexSearch mline = none) (h3 : rgbaSearch mline = none)
    (h4 : (ApplyTheme.lookupMap ApplyTheme.ACCENT_MAP tok).isSome = true)
    (h5 : (hexSearch l1).isSome = true ∨ (rgbaSearch l1).isSome = true)
    (h6 : ApplyTheme.findMarker ApplyTheme.ACCENT_MARKERS l1 = none)
    (h7 : ∀ l ∈ rest, ApplyTheme.findMarker ApplyTheme.ACCENT_MARKERS l = none ∧
      ApplyTheme.standaloneSearch l = none) :
    ApplyTheme.apply_accent_lines theme (mline :: l1 :: rest) =
      (mline :: (ApplyTheme.applyPending theme tok l1).1 :: rest,
        (ApplyTheme.applyPending theme tok l1).2.1) := by
  unfold ApplyTheme.apply_accent_lines
  rw [ApplyTheme.scanLines, ApplyTheme.scanStep_standalone theme none h1 h2 h3 h4]
  rw [ApplyTheme.scanLines, ApplyTheme.scanStep_consumes theme h5 h6]
  rw [ApplyTheme.applyPending_clears, ApplyTheme.scanLines_inert theme h7]
  simp

/-- Witness for `C4_standalone_binding`: a standalone `# accent:primary`
comment binds to exactly the next literal-bearing line; the second
literal-bearing line is untouched. -/
theorem C4_standalone_binding_witness :
    ApplyTheme.apply_accent_lines theme0
      [str "# accent:primary", str "a: #000000;", str "b: #000000;"] =
      ([str "# accent:primary",
        (ApplyTheme.applyPending theme0 (str "primary") (str "a: #000000;")).1,
        str "b: #000000;"],
        (ApplyTheme.applyPending theme0 (str "primary") (str "a: #000000;")).2.1) :=
  C4_standalone_binding theme0 (str "# accent:primary") (str "a: #000000;")
    [str "b: #000000;"] (str "primary") (by decide) (by decide) (by decide)
    (by decide) (Or.inl (by decide)) (by decide) (by decide)

/-- C5: marker precedence.  When a line contains the qualified token
`accent:secondary-bright-rgba`, the scanner's marker selection never picks the
slot of a shorter token that is a substring of it (`secondary_bright`,
`secondary`, nor the unrelated-but-shadowable `secondary_rgba`); and when no
marker of the earlier primary group is present, it picks exactly the
`secondary_bright_rgba` slot, because the table is consulted most specific
token first. -/
theorem C5_marker_precedence (line : List Char)
    (h : containsSub line (str "accent:secondary-bright-rgba") = true) :
    (∀ m, ApplyTheme.findMarker ApplyTheme.ACCENT_MARKERS line ≠
      some (m, "secondary_bright")) ∧
    (∀ m, ApplyTheme.findMarker ApplyTheme.ACCENT_MARKERS line ≠
      some (m, "secondary")) ∧
    (∀ m, ApplyTheme.findMarker ApplyTheme.ACCENT_MARKERS line ≠
      some (m, "secondary_rgba")) ∧
    (containsSub line (str "accent:primary") = false →
      ApplyTheme.findMarker ApplyTheme.ACCENT_MARKERS line =
        some (str "accent:secondary-bright-rgba", "secondary_bright_rgba")) := by
  have hsel : ∀ m k,
      ApplyTheme.findMarker ApplyTheme.ACCENT_MARKERS line = some (m, k) →
      k = "primary_rgba" ∨ k = "primary_bright" ∨ k = "primary" ∨
        k = "secondary_bright_rgba" := by
    intro m k hk
    simp only [ApplyTheme.ACCENT_MARKERS, ApplyTheme.findMarker] at hk
    by_cases hc1 : containsSub line (str "accent:primary-rgba") = true <;>
      by_cases hc2 : containsSub line (str "accent:primary-bright") = true <;>
        by_cases hc3 : containsSub line (str "accent:primary") = true <;>
          simp_all
  refine ⟨?_, ?_, ?_, ?_⟩
  · intro m hk
    rcases hsel m _ hk with h' | h' | h' | h' <;> simp at h'
  · intro m hk
    rcases hsel m _ hk with h' | h' | h' | h' <;> simp at h'
  · intro m hk
    rcases hsel m _ hk with h' | h' | h' | h' <;> simp at h'
  · intro hp
    have hc1 : containsSub line (str "accent:primary-rgba") = false := by
      by_contra hx
      rw [Bool.not_eq_false] at hx
      have := containsSub_of_infix (b := str "accent:primary") hx (by decide)
      rw [hp] at this
      exact absurd this (by simp)
    have hc2 : containsSub line (str "accent:primary-bright") = false := by
      by_contra hx
      rw [Bool.not_eq_false] at hx
      have := containsSub_of_infix (b := str "accent:primary") hx (by decide)
      rw [hp] at this
      exact absurd this (by simp)
    simp only [ApplyTheme.ACCENT_MARKERS, ApplyTheme.findMarker, hc1, hc2, hp, h]
    simp

/-- Witness for `C5_marker_precedence` on a concrete stylesheet line carrying
the qualified bright-rgba token. -/
theorem C5_marker_precedence_witness :
    ApplyTheme.findMarker ApplyTheme.ACCENT_MARKERS
      (str "x: rgba(00000000); /* accent:secondary-bright-rgba */") =
      some (str "accent:secondary-bright-rgba", "secondary_bright_rgba") :=
  (C5_marker_precedence
    (str "x: rgba(00000000); /* accent:secondary-bright-rgba */")
    (by decide)).2.2.2 (by decide)

/-- C9: literal-kind dispatch of the inline rewriter.  The line is rewritten
according to the first marker of the precedence table present in it; an
`_rgba` slot replaces only via the rgba pattern and any other slot only via
the hex pattern, and when the line carries no literal of the required kind the
line is returned unchanged and unmarked — even if a literal of the other kind
is present. -/
theorem C9_literal_kind_dispatch (theme : Theme) (line : List Char) :
    (ApplyTheme.findMarker ApplyTheme.ACCENT_MARKERS line = none →
      ApplyTheme.update_line_with_accent line theme = (line, false)) ∧
    ∀ m key, ApplyTheme.findMarker ApplyTheme.ACCENT_MARKERS line = some (m, key) →
      (keyIsRgba key = true →
        ApplyTheme.update_line_with_accent line theme =
          ApplyTheme.replace_first rgbaSearch line (theme.attr key) ∧
        (rgbaSearch line = none →
          ApplyTheme.update_line_with_accent line theme = (line, false))) ∧
      (keyIsRgba key = false →
        ApplyTheme.update_line_with_accent line theme =
          ApplyTheme.replace_first hexSearch line (theme.attr key) ∧
        (hexSearch line = none →
          ApplyTheme.update_line_with_accent line theme = (line, false))) := by
  constructor
  · exact fun h => ApplyTheme.update_line_of_no_marker theme h
  · intro m key hk
    constructor
    · intro hrgba
      have he : ApplyTheme.update_line_with_accent line theme =
          ApplyTheme.replace_first rgbaSearch line (theme.attr key) := by
        unfold ApplyTheme.update_line_with_accent
        rw [hk]
        simp [hrgba]
      refine ⟨he, fun hnone => ?_⟩
      rw [he, ApplyTheme.replace_first_of_search_none _ _ _ hnone]
    · intro hhex
      have he : ApplyTheme.update_line_with_accent line theme =
          ApplyTheme.replace_first hexSearch line (theme.attr key) := by
        unfold ApplyTheme.update_line_with_accent
        rw [hk]
        simp [hhex]
      refine ⟨he, fun hnone => ?_⟩
      rw [he, ApplyTheme.replace_first_of_search_none _ _ _ hnone]

theorem normalize_some_valid {s v : List Char} (h : normalize_hex s = some v) :
    hexFullmatch v = true := by
  unfold normalize_hex at h
  split at h
  · simp only [Option.some.injEq] at h
    subst h
    assumption
  · simp at h

namespace ApplyTheme

theorem resolve_plain_valid {ov st : Option (List Char)} {d p : List Char}
    (h : resolve_plain ov st d = some p) : hexFullmatch p = true := by
  unfold resolve_plain at h
  exact normalize_some_valid h

theorem resolve_bright_valid {ov st : Option (List Char)} {b p : List Char}
    (h : resolve_bright ov st b = some p) : hexFullmatch p = true := by
  unfold resolve_bright at h
  cases hp : pyOrStr ov st with
  | some s =>
    rw [hp] at h
    exact normalize_some_valid h
  | none =>
    rw [hp, Option.bind_eq_some] at h
    obtain ⟨y, _, hy⟩ := h
    exact normalize_some_valid hy

end ApplyTheme

/-- C6: fatal color validation.  (i) A successful resolution yields a record
every one of whose ten color slots fully matches `#` plus six hex digits;
(ii) `normalize_hex` succeeds exactly when the value — after stripping,
lower-casing and prefixing the `#` sigil — fully matches the pattern;
(iii) an invalid (non-empty) override value makes the whole resolution fail
with no partial settings record. -/
theorem C6_color_validation :
    (∀ (i : ApplyTheme.AccentInputs) (c : ApplyTheme.Colors),
      ApplyTheme.load_theme_colors i = some c → ApplyTheme.validColors c) ∧
    (∀ s : List Char,
      (normalize_hex s).isSome =
        hexFullmatch (withHash ((pyStrip s).map Char.toLower))) ∧
    (∀ (i : ApplyTheme.AccentInputs) (s : List Char), s.isEmpty = false →
      normalize_hex s = none →
      ApplyTheme.load_theme_colors (ApplyTheme.setPrimaryOverride i s) = none) := by
  refine ⟨?_, ?_, ?_⟩
  · intro i c h
    unfold ApplyTheme.load_theme_colors at h
    simp only [bind, Option.bind_eq_some, Option.pure_def, Option.some.injEq] at h
    obtain ⟨p, hp, pb, hpb, s, hs, sb, hsb, t, ht, tb, htb, q, hq, qb, hqb, u, hu,
      ub, hub, hc⟩ := h
    subst hc
    exact ⟨ApplyTheme.resolve_plain_valid hp, ApplyTheme.resolve_bright_valid hpb,
      ApplyTheme.resolve_plain_valid hs, ApplyTheme.resolve_bright_valid hsb,
      ApplyTheme.resolve_plain_valid ht, ApplyTheme.resolve_bright_valid htb,
      ApplyTheme.resolve_plain_valid hq, ApplyTheme.resolve_bright_valid hqb,
      ApplyTheme.resolve_plain_valid hu, ApplyTheme.resolve_bright_valid hub⟩
  · intro s
    unfold normalize_hex
    split <;> simp_all
  · intro i s hne hnorm
    unfold ApplyTheme.load_theme_colors
    have h0 : ApplyTheme.resolve_plain (ApplyTheme.setPrimaryOverride i s).o_primary
        (ApplyTheme.setPrimaryOverride i s).s_primary (str "#7dd6f6") = none := by
      simp [ApplyTheme.resolve_plain, ApplyTheme.setPrimaryOverride,
        ApplyTheme.pyOrStr, hne, hnorm]
    rw [h0]
    simp

/-- Witness for `C6_color_validation`: the invalid override `"zz"` fails the
whole resolution. -/
theorem C6_color_validation_witness :
    ApplyTheme.load_theme_colors
      (ApplyTheme.setPrimaryOverride ApplyTheme.emptyInputs (str "zz")) = none :=
  C6_color_validation.2.2 ApplyTheme.emptyInputs (str "zz") (by decide) (by decide)

theorem pyRound_eq_floor_or_succ (q : ℚ) :
    pyRound q = ⌊q⌋ ∨ pyRound q = ⌊q⌋ + 1 := by
  unfold pyRound
  by_cases h1 : q - ⌊q⌋ < 1 / 2
  · rw [if_pos h1]
    exact Or.inl rfl
  · rw [if_neg h1]
    by_cases h2 : 1 / 2 < q - ⌊q⌋
    · rw [if_pos h2]
      exact Or.inr rfl
    · rw [if_neg h2]
      by_cases h3 : 2 ∣ ⌊q⌋
      · rw [if_pos h3]
        exact Or.inl rfl
      · rw [if_neg h3]
        exact Or.inr rfl

theorem pyRound_intCast (n : ℤ) : pyRound (n : ℚ) = n := by
  unfold pyRound
  rw [Int.floor_intCast, sub_self]
  norm_num

theorem lightenChannel_bounds {ch : ℕ} (hch : ch ≤ 255) {f : ℚ}
    (h0 : 0 < f) :
    (ch : ℤ) ≤ lightenChannel ch f ∧ lightenChannel ch f ≤ 255 ∧
      (ch = 255 → lightenChannel ch f = 255) := by
  have h255 : (ch : ℚ) ≤ 255 := by exact_mod_cast hch
  have hx : (ch : ℚ) ≤ (ch : ℚ) + (255 - (ch : ℚ)) * f := by nlinarith
  have hfl : (ch : ℤ) ≤ ⌊(ch : ℚ) + (255 - (ch : ℚ)) * f⌋ := by
    rw [Int.le_floor]
    exact_mod_cast hx
  have hge : (ch : ℤ) ≤ pyRound ((ch : ℚ) + (255 - (ch : ℚ)) * f) := by
    rcases pyRound_eq_floor_or_succ ((ch : ℚ) + (255 - (ch : ℚ)) * f) with h | h <;>
      omega
  refine ⟨?_, ?_, ?_⟩
  · unfold lightenChannel
    exact le_min (by exact_mod_cast hch) hge
  · unfold lightenChannel
    exact min_le_left _ _
  · intro hc
    subst hc
    unfold lightenChannel
    have he : ((255 : ℕ) : ℚ) + (255 - ((255 : ℕ) : ℚ)) * f = ((255 : ℤ) : ℚ) := by
      push_cast
      ring
    rw [he, pyRound_intCast]
    simp

set_option maxRecDepth 4096 in
theorem toHex2_roundtrip_fin : ∀ n : Fin 256,
    hexPairVal (hexChar ((n : ℕ) / 16 % 16)) (hexChar ((n : ℕ) % 16)) = (n : ℕ) := by
  decide

theorem hexPair_toHex2 {n : ℕ} (h : n ≤ 255) :
    hexPairVal (hexChar (n / 16 % 16)) (hexChar (n % 16)) = n :=
  toHex2_roundtrip_fin ⟨n, by omega⟩

theorem hexDigitVal_le {c : Char} (h : isHexDigit c = true) : hexDigitVal c ≤ 15 := by
  unfold isHexDigit at h
  have h' := of_decide_eq_true h
  unfold hexDigitVal
  split_ifs <;> omega

theorem hexPairVal_le {c1 c2 : Char} (h1 : isHexDigit c1 = true)
    (h2 : isHexDigit c2 = true) : hexPairVal c1 c2 ≤ 255 := by
  have hv1 := hexDigitVal_le h1
  have hv2 := hexDigitVal_le h2
  unfold hexPairVal
  omega

theorem hexFullmatch_shape {v : List Char} (h : hexFullmatch v = true) :
    ∃ a1 a2 a3 a4 a5 a6, v = ['#', a1, a2, a3, a4, a5, a6] ∧
      isHexDigit a1 = true ∧ isHexDigit a2 = true ∧ isHexDigit a3 = true ∧
      isHexDigit a4 = true ∧ isHexDigit a5 = true ∧ isHexDigit a6 = true := by
  cases v with
  | nil => simp [hexFullmatch] at h
  | cons c0 rest =>
    rw [hexFullmatch] at h
    obtain ⟨rfl, hlen, hall⟩ := of_decide_eq_true h
    rcases rest with _ | ⟨a1, rest⟩
    · simp at hlen
    rcases rest with _ | ⟨a2, rest⟩
    · simp at hlen
    rcases rest with _ | ⟨a3, rest⟩
    · simp at hlen
    rcases rest with _ | ⟨a4, rest⟩
    · simp at hlen
    rcases rest with _ | ⟨a5, rest⟩
    · simp at hlen
    rcases rest with _ | ⟨a6, rest⟩
    · simp at hlen
    rcases rest with _ | ⟨a7, rest⟩
    · simp only [List.all_cons, List.all_nil, Bool.and_eq_true, and_true] at hall
      exact ⟨a1, a2, a3, a4, a5, a6, rfl, hall.1, hall.2.1, hall.2.2.1,
        hall.2.2.2.1, hall.2.2.2.2.1, hall.2.2.2.2.2⟩
    · simp at hlen

/-- C7: canonical settings rewriter section preservation.  The rewritten
settings file contains a `[ui]` section line exactly when the prior file
existed, parsed, and had a `ui` table; the `[accent]` section header and the
full accent section regenerated from the resolved settings are always present;
and every section-header line (a line starting with `[`) of the output is
`[accent]` or `[ui]` — any other user-authored section is absent. -/
theorem C7_settings_rewriter (t : Theme) (p : ApplyTheme.PriorSettings) :
    (str "[ui]" ∈ ApplyTheme.update_theme_file t p ↔
      ApplyTheme.existing_ui p = some ApplyTheme.PyValue.dict) ∧
    str "[accent]" ∈ ApplyTheme.update_theme_file t p ∧
    ApplyTheme.accentLines t <:+: ApplyTheme.update_theme_file t p ∧
    (∀ l ∈ ApplyTheme.update_theme_file t p, l.head? = some '[' →
      l = str "[accent]" ∨ l = str "[ui]") := by
  refine ⟨⟨?_, ?_⟩, ?_, ⟨ApplyTheme.headerLines, _, rfl⟩, ?_⟩
  · intro hmem
    unfold ApplyTheme.update_theme_file at hmem
    cases hui : ApplyTheme.existing_ui p with
    | some v =>
      cases v with
      | dict => rfl
      | nonDict =>
        exfalso
        rw [hui] at hmem
        simp [ApplyTheme.headerLines, ApplyTheme.accentLines, str] at hmem
    | none =>
      exfalso
      rw [hui] at hmem
      simp [ApplyTheme.headerLines, ApplyTheme.accentLines, str] at hmem
  · intro hui
    unfold ApplyTheme.update_theme_file
    rw [hui]
    simp [ApplyTheme.headerLines, ApplyTheme.accentLines, ApplyTheme.uiLines]
  · unfold ApplyTheme.update_theme_file
    simp [ApplyTheme.headerLines, ApplyTheme.accentLines]
  · intro l hl hhead
    unfold ApplyTheme.update_theme_file at hl
    rcases hui : ApplyTheme.existing_ui p with _ | v
    · rw [hui] at hl
      simp only [ApplyTheme.headerLines, ApplyTheme.accentLines, List.append_nil,
        List.mem_append, List.mem_cons, List.not_mem_nil, or_false] at hl
      rcases hl with (rfl | rfl | rfl) | rfl | rfl | rfl | rfl | rfl | rfl | rfl |
        rfl | rfl | rfl | rfl | rfl <;>
        first
          | exact Or.inl rfl
          | exact Or.inr rfl
          | simp [str] at hhead
    · rw [hui] at hl
      cases v with
      | nonDict =>
        simp only [ApplyTheme.headerLines, ApplyTheme.accentLines, List.append_nil,
          List.mem_append, List.mem_cons, List.not_mem_nil, or_false] at hl
        rcases hl with (rfl | rfl | rfl) | rfl | rfl | rfl | rfl | rfl | rfl | rfl |
          rfl | rfl | rfl | rfl | rfl <;>
          first
            | exact Or.inl rfl
            | exact Or.inr rfl
            | simp [str] at hhead
      | dict =>
        simp only [ApplyTheme.headerLines, ApplyTheme.accentLines,
          ApplyTheme.uiLines, List.mem_append, List.mem_cons, List.not_mem_nil,
          or_false] at hl
        rcases hl with ((rfl | rfl | rfl) | rfl | rfl | rfl | rfl | rfl | rfl |
          rfl | rfl | rfl | rfl | rfl | rfl) | rfl | rfl | rfl | rfl | rfl | rfl |
          rfl | rfl <;>
          first
            | exact Or.inl rfl
            | exact Or.inr rfl
            | simp [str, ApplyTheme.intStr, ApplyTheme.boolStr] at hhead

/-- Witness for `C7_settings_rewriter`: with a prior file that parsed to a
`ui` table, the regenerated file contains the `[ui]` section. -/
theorem C7_settings_rewriter_witness :
    str "[ui]" ∈ ApplyTheme.update_theme_file theme0
      ⟨true, some (some ApplyTheme.PyValue.dict)⟩ :=
  (C7_settings_rewriter theme0 ⟨true, some (some ApplyTheme.PyValue.dict)⟩).1.2
    (by decide)

/-- C8: lightening monotonicity and fixed point.  For every valid 6-hex-digit
color and every factor strictly between 0 and 1, each output channel of the
lightening derivation is at least the corresponding input channel, at most
255, and exactly 255 whenever the input channel is already 255; and the
derivation is a pure function — equal inputs give equal outputs. -/
theorem C8_lighten_monotone (v : List Char) (f : ℚ) (hv : hexFullmatch v = true)
    (h0 : 0 < f) (_h1 : f < 1) :
    List.Forall₂ (fun i o => i ≤ o ∧ o ≤ 255 ∧ (i = 255 → o = 255))
      (hexChannels v) (hexChannels (lightenCore v f)) ∧
    ∀ (w : List Char) (g : ℚ), v = w → f = g → lightenCore v f = lightenCore w g := by
  obtain ⟨a1, a2, a3, a4, a5, a6, rfl, ha1, ha2, ha3, ha4, ha5, ha6⟩ :=
    hexFullmatch_shape hv
  constructor
  · have hp1 : hexPairVal a1 a2 ≤ 255 := hexPairVal_le ha1 ha2
    have hp2 : hexPairVal a3 a4 ≤ 255 := hexPairVal_le ha3 ha4
    have hp3 : hexPairVal a5 a6 ≤ 255 := hexPairVal_le ha5 ha6
    have hb1 := lightenChannel_bounds hp1 h0
    have hb2 := lightenChannel_bounds hp2 h0
    have hb3 := lightenChannel_bounds hp3 h0
    have e1 : hexChannels ['#', a1, a2, a3, a4, a5, a6] =
        [hexPairVal a1 a2, hexPairVal a3 a4, hexPairVal a5 a6] := rfl
    have e2 : hexChannels (lightenCore ['#', a1, a2, a3, a4, a5, a6] f) =
        [hexPairVal
            (hexChar ((lightenChannel (hexPairVal a1 a2) f).toNat / 16 % 16))
            (hexChar ((lightenChannel (hexPairVal a1 a2) f).toNat % 16)),
          hexPairVal
            (hexChar ((lightenChannel (hexPairVal a3 a4) f).toNat / 16 % 16))
            (hexChar ((lightenChannel (hexPairVal a3 a4) f).toNat % 16)),
          hexPairVal
            (hexChar ((lightenChannel (hexPairVal a5 a6) f).toNat / 16 % 16))
            (hexChar ((lightenChannel (hexPairVal a5 a6) f).toNat % 16))] := rfl
    rw [e1, e2]
    rw [hexPair_toHex2 (by omega), hexPair_toHex2 (by omega),
      hexPair_toHex2 (by omega)]
    refine List.Forall₂.cons ⟨?_, ?_, ?_⟩
      (List.Forall₂.cons ⟨?_, ?_, ?_⟩
        (List.Forall₂.cons ⟨?_, ?_, ?_⟩ List.Forall₂.nil)) <;>
      · try intro hc
        omega
  · rintro w g rfl rfl
    rfl

/-- Witness for `C8_lighten_monotone` at the default palette color `#7dd6f6`
and the default factor `1/5`. -/
theorem C8_lighten_monotone_witness :
    List.Forall₂ (fun i o => i ≤ o ∧ o ≤ 255 ∧ (i = 255 → o = 255))
      (hexChannels (str "#7dd6f6")) (hexChannels (lightenCore (str "#7dd6f6") (1 / 5))) ∧
    ∀ (w : List Char) (g : ℚ), str "#7dd6f6" = w → (1 : ℚ) / 5 = g →
      lightenCore (str "#7dd6f6") (1 / 5) = lightenCore w g :=
  C8_lighten_monotone (str "#7dd6f6") (1 / 5) (by decide) (by norm_num) (by norm_num)

namespace ApplyTheme

theorem hashTokenAt_of_no_hash {c : Char} {rest : List Char} (h : ¬ c = '#') :
    hashTokenAt (c :: rest) = none := by
  rw [hashTokenAt, if_neg h]

theorem standaloneSearchAux_of_no_hash {line : List Char}
    (h : ¬ '#' ∈ line) : ∀ ok, standaloneSearchAux line ok = none := by
  induction line with
  | nil => intro ok; rfl
  | cons c t ih =>
    intro ok
    have hc : ¬ c = '#' := fun hc => h (by simp [hc])
    have ht : ¬ '#' ∈ t := fun ht => h (by simp [ht])
    rw [standaloneSearchAux]
    cases ok
    · simp [ih ht]
    · simp [hashTokenAt_of_no_hash hc, ih ht]

theorem scanLines_no_standalone (theme : Theme) {ls : List (List Char)}
    (h : ∀ l ∈ ls, standaloneSearch l = none) :
    scanLines theme none ls =
      (ls.map (fun l => (update_line_with_accent l theme).1),
        ls.any (fun l => (update_line_with_accent l theme).2)) := by
  induction ls with
  | nil => rfl
  | cons l t ih =>
    rw [scanLines, scanStep_none_pending theme (h l (by simp))]
    rw [ih (fun x hx => h x (by simp [hx]))]
    simp

end ApplyTheme

/-- C10: standalone markers are recognized only in `#`-comment form.  A line
without a `#` character never matches the standalone pattern; the pending
marker is only ever set (to a new value) by a line matching the `#`-comment
pattern with a known token and carrying no hex/rgba literal; and a scan of
lines none of which matches the standalone pattern degenerates to the pure
inline rewriter — no line is ever rewritten through a pending marker. -/
theorem C10_hash_comment_only (theme : Theme) :
    (∀ line : List Char, ¬ '#' ∈ line → ApplyTheme.standaloneSearch line = none) ∧
    (∀ (pending : Option (List Char)) (line tok : List Char),
      (ApplyTheme.scanStep theme pending line).2.2 = some tok →
      pending = some tok ∨
        (ApplyTheme.standaloneSearch line = some tok ∧ hexSearch line = none ∧
          rgbaSearch line = none ∧
          (ApplyTheme.lookupMap ApplyTheme.ACCENT_MAP tok).isSome = true)) ∧
    (∀ ls : List (List Char), (∀ l ∈ ls, ApplyTheme.standaloneSearch l = none) →
      ApplyTheme.scanLines theme none ls =
        (ls.map (fun l => (ApplyTheme.update_line_with_accent l theme).1),
          ls.any (fun l => (ApplyTheme.update_line_with_accent l theme).2))) :=
  ⟨fun _ h => ApplyTheme.standaloneSearchAux_of_no_hash h true,
   fun pending line tok h => ApplyTheme.scanStep_sets theme pending line tok h,
   fun _ h => ApplyTheme.scanLines_no_standalone theme h⟩

/-- Witness for `C10_hash_comment_only`: a CSS block-comment marker line (no
`#`) never matches the standalone pattern, and scanning it followed by a
literal line rewrites nothing through a pending marker. -/
theorem C10_hash_comment_only_witness :
    ApplyTheme.standaloneSearch (str "/* accent:secondary */") = none ∧
    ApplyTheme.scanLines theme0 none
      [str "/* accent:secondary */", str "color: #000000;"] =
      ([str "/* accent:secondary */", str "color: #000000;"].map
          (fun l => (ApplyTheme.update_line_with_accent l theme0).1),
        [str "/* accent:secondary */", str "color: #000000;"].any
          (fun l => (ApplyTheme.update_line_with_accent l theme0).2)) :=
  ⟨(C10_hash_comment_only theme0).1 (str "/* accent:secondary */") (by decide),
   (C10_hash_comment_only theme0).2.2
     [str "/* accent:secondary */", str "color: #000000;"] (by decide)⟩

/-- Witness for `C9_literal_kind_dispatch`: a line with an rgba-kind marker
and only a hex literal is returned unchanged and not marked changed. -/
theorem C9_literal_kind_dispatch_witness :
    ApplyTheme.update_line_with_accent
      (str "color: #123456; /* accent:primary-rgba */") theme0 =
      (str "color: #123456; /* accent:primary-rgba */", false) :=
  (((C9_literal_kind_dispatch theme0
      (str "color: #123456; /* accent:primary-rgba */")).2
    (str "accent:primary-rgba") "primary_rgba" (by decide)).1 (by decide)).2
    (by decide)
